import Mathlib

/-!
Shallow embedding of the kuja RPC server (the `kuja` package: `NewServer`,
`getServiceMethod`, `ServeHTTP`, `serve`, `respError`, `start`, `stop`) and of
the gogoproto codec (`encoder/gogoproto/gogoproto.go`), together with theorems
checking the written specification against this embedding.

Conventions of the embedding:
- Go maps become association lists with `metaSet` giving assignment semantics.
- The `http.ResponseWriter`, the audit-log goroutine spawn and a few points of
  interest are modelled as an emitted list of `Event`s, in source order.
- `sync.Pool` becomes an explicit free list in which `Put` followed by `Get`
  returns the very object that was put; this models the executions in which
  the pool does recycle an object (which `sync.Pool` may do).
- Payloads (request bodies, marshalled bytes) are modelled as `String`s; the
  pluggable codec, the snappy compressor and the bound method are parameters.
-/

namespace Kuja

/-- Go `Metadata` (`map[string]string`), modelled as an association list. -/
abbrev Metadata := List (String × String)

/-- Map assignment `m[k] = v` on the association-list model of a Go map. -/
def metaSet : Metadata → String → String → Metadata
  | [], k, v => [(k, v)]
  | (k', v') :: rest, k, v =>
    if k' = k then (k, v) :: rest else (k', v') :: metaSet rest k v

/-- Errors flowing through dispatch. `withStatus` is a value implementing the
repository `Errors` interface. Modelled from the spec: the `Errors` interface
and the `Error(status, message)` constructor are in a repository file that is
not among the sources here; per the spec such an error is unwrapped to its
(status, message) pair, and any other error defaults to status 500 and carries
only a message. -/
inductive RpcError where
  | withStatus (status : Nat) (msg : String)
  | plain (msg : String)
deriving DecidableEq

/-- The status respError extracts: the declared code, or 500 by default. -/
def RpcError.statusCode : RpcError → Nat
  | .withStatus c _ => c
  | .plain _ => 500

/-- The message of the error (its `Error()` string). -/
def RpcError.message : RpcError → String
  | .withStatus _ m => m
  | .plain m => m

/-- Observable actions of a request, in source order. `setHeader`,
`writeHeader` and `writeBody` are the `http.ResponseWriter` calls; `logError`
is the spawn of the audit-log goroutine (`go ctx.logError(...)`, fire and
forget); the remaining constructors instrument points of the pipeline:
`routeLookup` is the `getServiceMethod` call, `ctxAcquired` is `pool.Get`,
`methodInvoked` is the reflective `function.Call`, `encodeReply` is the
attempt to marshal or stream-encode the reply, `ctxReleased` is `pool.Put`. -/
inductive Event where
  | setHeader (name val : String)
  | writeHeader (status : Nat)
  | writeBody (data : String)
  | logError (serviceID serviceName methodName : String) (status : Nat) (msg : String)
  | routeLookup (serviceName methodName : String)
  | ctxAcquired
  | methodInvoked
  | encodeReply
  | ctxReleased
deriving DecidableEq

/-- The pooled per-request context (`Ctx`). Only its data fields are carried
through the pool; the per-request handles (`w`, `req`, `mt`, `rcvr`,
`encoder`) that `ServeHTTP` reassigns on lines 216-222 are threaded as
function parameters instead. -/
structure Ctx where
  ReqMetadata : Metadata
  RespMetadata : Metadata
  ServiceID : String
  ServiceName : String
  MethodName : String
  isResp : Bool
  snappy : Bool
deriving DecidableEq

/-- An inbound HTTP request: method, URL path, headers (first value of each
header name, as `ServeHTTP` reads them) and body. -/
structure Request where
  method : String
  path : String
  headers : Metadata
  body : String
deriving DecidableEq

/-- A bound service method. It receives the current outbound metadata map and
the decoded argument, and yields the updated outbound metadata, the reply and
the returned error (the single `error` return value of the Go method). -/
abbrev MethodFn := Metadata → String → Metadata × String × Option RpcError

/-- A middleware handler (`Handler func(ctx *Ctx, w, r) error`): it transforms
the context, emits writer events and returns an error. -/
abbrev HandlerFn := Ctx → Ctx × List Event × Option RpcError

/-- The pluggable codec (`encoder.Encoder`): `decode` reads the request body,
`marshal` turns a reply into bytes, `encodeTo` stream-encodes a reply giving
the bytes it writes. -/
structure Encoder where
  decode : String → Except RpcError String
  marshal : String → Except RpcError String
  encodeTo : String → Except RpcError String

/-- The external snappy compressor (`snappy.Encode`), as a parameter. -/
abbrev CompressFn := String → Except RpcError String

/-- The registered `service` record: identity, name, method map and bound
middleware. -/
structure service where
  id : String
  name : String
  method : List (String × MethodFn)
  handlers : List HandlerFn

/-- The `Server`: context free list (`sync.Pool`), service map, codec,
compressor and compression flag. -/
structure Server where
  pool : List Ctx
  serviceMap : List (String × service)
  encoder : Encoder
  compress : CompressFn
  snappy : Bool

/-- The context `pool.New` builds (`NewServer`, lines 43-51): empty metadata
maps and a cleared response-sent flag. -/
def newCtx : Ctx :=
  { ReqMetadata := [], RespMetadata := [], ServiceID := "", ServiceName := "",
    MethodName := "", isResp := false, snappy := false }

/-- `pool.Get`: pop the free list, or build a fresh context via `pool.New`. -/
def poolGet (server : Server) : Ctx × Server :=
  match server.pool with
  | c :: rest => (c, { server with pool := rest })
  | [] => (newCtx, server)

/-- `pool.Put`: push the context back on the free list, exactly as given. -/
def poolPut (server : Server) (c : Ctx) : Server :=
  { server with pool := c :: server.pool }

/-- The byte loop of `getServiceMethod` (lines 170-174): split at the first
slash, if any. -/
def splitAtFirstSlash : List Char → Option (List Char × List Char)
  | [] => none
  | c :: rest =>
    if c = '/' then some ([], rest)
    else
      match splitAtFirstSlash rest with
      | none => none
      | some p => some (c :: p.1, p.2)

/-- `getServiceMethod` (lines 161-177): strip one leading and one trailing
slash, then return the pieces around the first remaining slash, or two empty
strings when none remains. -/
def getServiceMethod (s : String) : String × String :=
  let cs0 := s.toList
  let cs1 := if cs0.head? = some '/' then cs0.tail else cs0
  let cs2 := if cs1.getLast? = some '/' then cs1.dropLast else cs1
  match splitAtFirstSlash cs2 with
  | some p => (String.mk p.1, String.mk p.2)
  | none => ("", "")

/-- The context population of `ServeHTTP` lines 216-225 (the per-request
handles of lines 216-221 are threaded as parameters instead of stored). -/
def populateCtx (server : Server) (s : service) (sn mn : String) (c : Ctx) : Ctx :=
  { c with snappy := server.snappy, ServiceID := s.id,
           ServiceName := sn, MethodName := mn }

/-- The apostrophe character, spelled by code point. -/
def apostrophe : String := String.singleton (Char.ofNat 39)

/-- The "rpc: can not find ..." body text of `ServeHTTP`, with the apostrophe
of the source literal spelled by code point. -/
def cantFind (what : String) : String :=
  "rpc: can" ++ apostrophe ++ "t find " ++ what

/-- `respError` (lines 239-251): mark the response sent, spawn the audit-log
goroutine with (serviceID, serviceName, methodName, status, error) and write
the status and the message body; the status is the declared code when the
error implements `Errors`, else 500. -/
def respError (err : RpcError) (ctx : Ctx) : Ctx × List Event :=
  match err with
  | .withStatus st msg =>
      ({ ctx with isResp := true },
       [.logError ctx.ServiceID ctx.ServiceName ctx.MethodName st msg,
        .writeHeader st, .writeBody msg])
  | .plain msg =>
      ({ ctx with isResp := true },
       [.logError ctx.ServiceID ctx.ServiceName ctx.MethodName 500 msg,
        .writeHeader 500, .writeBody msg])

/-- `serve` (lines 253-295). Decode the body (failure gives
`Error(500, "unable to encode response")` without invoking the method), invoke
the method, propagate its error without writing anything, otherwise copy the
outbound metadata to headers and either marshal-compress-write (snappy) or
write 200 and stream-encode; the stream-encode error of line 291 is discarded.
Partial bytes of a failed stream encode are not modelled: no body event is
emitted for it. -/
def serve (enc : Encoder) (comp : CompressFn) (mt : MethodFn) (body : String)
    (ctx : Ctx) : Ctx × List Event × Option RpcError :=
  match enc.decode body with
  | .error _ => (ctx, [], some (.withStatus 500 "unable to encode response"))
  | .ok argv =>
    let mr := mt ctx.RespMetadata argv
    let ctx := { ctx with RespMetadata := mr.1 }
    match mr.2.2 with
    | some e => (ctx, [.methodInvoked], some e)
    | none =>
      let hdrEvs := ctx.RespMetadata.map (fun p => Event.setHeader p.1 p.2)
      if ctx.snappy then
        match enc.marshal mr.2.1 with
        | .error e => (ctx, [Event.methodInvoked] ++ hdrEvs ++ [.encodeReply], some e)
        | .ok data =>
          match comp data with
          | .error e => (ctx, [Event.methodInvoked] ++ hdrEvs ++ [.encodeReply], some e)
          | .ok cdata =>
            ({ ctx with isResp := true },
             [Event.methodInvoked] ++ hdrEvs ++
               [.encodeReply, .setHeader "Snappy" "true", .writeHeader 200,
                .writeBody cdata],
             none)
      else
        ({ ctx with isResp := true },
         [Event.methodInvoked] ++ hdrEvs ++ [.writeHeader 200, .encodeReply] ++
           (match enc.encodeTo mr.2.1 with
            | .ok bs => [Event.writeBody bs]
            | .error _ => []),
         none)

/-- `ServeHTTP` (lines 179-237): reject non-POST with 405; resolve the route;
404 on a missing segment before touching the pool; acquire a context and merge
the request headers into its (uncleaned) inbound metadata; 404 on unknown
service or unknown method, on both of which the context is not returned to the
pool; otherwise populate the context, run the first middleware or `serve`,
call `respError` when an error comes back and the response-sent flag is still
clear, and put the context back in the pool exactly as it is. -/
def ServeHTTP (server : Server) (req : Request) : Server × List Event :=
  if req.method ≠ "POST" then
    (server, [.setHeader "Content-Type" "text/plain; charset=utf-8",
              .writeHeader 405, .writeBody "405 must POST\n"])
  else
    let sm := getServiceMethod req.path
    if sm.1 = "" ∨ sm.2 = "" then
      (server, [.routeLookup sm.1 sm.2, .writeHeader 404,
                .writeBody (cantFind "service or method")])
    else
      let gp := poolGet server
      let ctx1 : Ctx :=
        { gp.1 with
          ReqMetadata := req.headers.foldl (fun m p => metaSet m p.1 p.2) gp.1.ReqMetadata }
      match List.lookup sm.1 server.serviceMap with
      | none =>
        (gp.2, [.routeLookup sm.1 sm.2, .ctxAcquired, .writeHeader 404,
                .writeBody (cantFind ("service " ++ sm.1))])
      | some s =>
        match List.lookup sm.2 s.method with
        | none =>
          (gp.2, [.routeLookup sm.1 sm.2, .ctxAcquired, .writeHeader 404,
                  .writeBody (cantFind ("method " ++ sm.2))])
        | some mt =>
          let ctx2 := populateCtx server s sm.1 sm.2 ctx1
          let out :=
            match s.handlers with
            | h :: _ =>
              let r := h ctx2
              match r.2.2 with
              | some e =>
                if r.1.isResp then (r.1, r.2.1)
                else ((respError e r.1).1, r.2.1 ++ (respError e r.1).2)
              | none => (r.1, r.2.1)
            | [] =>
              let r := serve server.encoder server.compress mt req.body ctx2
              match r.2.2 with
              | some e =>
                if r.1.isResp then (r.1, r.2.1)
                else ((respError e r.1).1, r.2.1 ++ (respError e r.1).2)
              | none => (r.1, r.2.1)
          (poolPut gp.2 out.1,
           [.routeLookup sm.1 sm.2, .ctxAcquired] ++ out.2 ++ [.ctxReleased])

/-- Whether an event is the spawn of the audit-log callback. -/
def Event.isLog : Event → Bool
  | .logError .. => true
  | _ => false

/-- The audit-log spawns among a list of events. -/
def logsOf (evs : List Event) : List Event := evs.filter Event.isLog

/-- The final header map that a list of writer events produces
(`Header().Set` overwrites). -/
def headerFinal (evs : List Event) : Metadata :=
  evs.foldl
    (fun m e => match e with | .setHeader k v => metaSet m k v | _ => m) []

/-! ## Discovery lifecycle (`start`, `stop`, lines 118-159) -/

/-- A `registry.Node`. -/
structure Node where
  Id : String
  Name : String
  Host : String
  Port : String
  Address : String
deriving DecidableEq

/-- `strings.Split(addr, ":")` for the single-character separator, at the
character level. -/
def splitOnColon : List Char → List (List Char)
  | [] => [[]]
  | c :: rest =>
    if c = ':' then [] :: splitOnColon rest
    else
      match splitOnColon rest with
      | [] => [[c]]
      | g :: gs => (c :: g) :: gs

/-- `strings.Join(parts, ":")` at the character level. -/
def joinColon : List (List Char) → List Char
  | [] => []
  | [g] => g
  | g :: gs => g ++ ':' :: joinColon gs

/-- The (host, port) derivation of `start` lines 123-131: split the address on
every colon; with more than one part the host is every part but the last
rejoined with colons and the port is the last part, otherwise the host is the
whole address and the port stays empty. -/
def hostPortOf (addr : String) : String × String :=
  let parts := splitOnColon addr.toList
  if parts.length > 1 then
    (String.mk (joinColon parts.dropLast), String.mk (parts.getLastD []))
  else (String.mk (parts.headD []), "")

/-- `start` (lines 118-146): with no registry configured nothing happens; with
one, every known service is registered with a node built from its id, its
name, the derived host and port and the full address. The registry is a
parameter returning an error or not; the error is only logged, so the list of
attempted calls, in order, with each outcome, is the result. -/
def start (registry : Option (Node → Option String)) (serviceMap : List service)
    (addr : String) : List (Node × Option String) :=
  match registry with
  | none => []
  | some reg =>
    let hp := hostPortOf addr
    serviceMap.map fun s =>
      let n : Node := ⟨s.id, s.name, hp.1, hp.2, addr⟩
      (n, reg n)

/-- `stop` (lines 148-159): with a registry configured, deregister every known
service by (name, id); errors are only logged. -/
def stop (registry : Option (String → String → Option String))
    (serviceMap : List service) : List ((String × String) × Option String) :=
  match registry with
  | none => []
  | some dereg => serviceMap.map fun s => ((s.name, s.id), dereg s.name s.id)

/-! ## The gogoproto codec (`encoder/gogoproto/gogoproto.go`) -/

/-- A Go `interface{}` value handed to the codec: either a value implementing
`proto.Message` (with an abstract payload) or any other value. -/
inductive GoVal where
  | message (payload : List Nat)
  | other (tag : Nat)
deriving DecidableEq

/-- The type assertion `v.(proto.Message)`: the message, or `none` (a nil
`pb`) when the value does not implement the interface. -/
def asProtoMessage : GoVal → Option (List Nat)
  | .message p => some p
  | .other _ => none

/-- Error values the codec can touch. `mismatchErr` is the fresh value built
by `errors.New("does not proto message interface")`; being freshly allocated
it is distinct from every error the proto library or the writer returns, which
the separate constructors encode. -/
inductive GoGoErr where
  | protoErr (msg : String)
  | writeErr (msg : String)
  | mismatchErr
deriving DecidableEq

/-- `Encode` (lines 18-32): assert the message type, build — and drop — the
mismatch error, marshal (a nil `pb` when the assertion failed), return the
marshal error, else write and return the write error. The proto library and
the writer are parameters. -/
def gogoEncode (marshal : Option (List Nat) → Except String (List Nat))
    (write : List Nat → Option String) (v : GoVal) : Option GoGoErr :=
  let pb := asProtoMessage v
  let _discarded := GoGoErr.mismatchErr
  match marshal pb with
  | .error e => some (.protoErr e)
  | .ok data => (write data).map GoGoErr.writeErr

/-- `Decode` (lines 34-47): read the input (the pooled buffer is not
modelled), assert the message type, build and drop the mismatch error,
unmarshal into `pb` and return the unmarshal error. -/
def gogoDecode (unmarshal : List Nat → Option (List Nat) → Option String)
    (input : List Nat) (v : GoVal) : Option GoGoErr :=
  let pb := asProtoMessage v
  let _discarded := GoGoErr.mismatchErr
  (unmarshal input pb).map GoGoErr.protoErr

/-- `Marshal` (lines 49-56): assert, build and drop the mismatch error, and
return `proto.Marshal(pb)`. -/
def gogoMarshal (marshal : Option (List Nat) → Except String (List Nat))
    (v : GoVal) : Except GoGoErr (List Nat) :=
  let pb := asProtoMessage v
  let _discarded := GoGoErr.mismatchErr
  match marshal pb with
  | .error e => .error (.protoErr e)
  | .ok data => .ok data

/-- `Unmarshal` (lines 58-65): assert, build and drop the mismatch error, and
return `proto.Unmarshal(data, pb)`. -/
def gogoUnmarshal (unmarshal : List Nat → Option (List Nat) → Option String)
    (data : List Nat) (v : GoVal) : Option GoGoErr :=
  let pb := asProtoMessage v
  let _discarded := GoGoErr.mismatchErr
  (unmarshal data pb).map GoGoErr.protoErr

/-! ## The PathRouter restated from the specification text -/

/-- PathRouter exactly as the specification words it: strip one leading and
one trailing slash, split the remainder at the first remaining slash into
(service, method); when no slash remains both segments are empty (a routing
failure). Stated independently of `getServiceMethod` to compare the two. -/
def pathRouterSpecFn (s : String) : String × String :=
  let t0 := s.toList
  let t1 := if t0.head? = some '/' then t0.tail else t0
  let t2 := if t1.getLast? = some '/' then t1.dropLast else t1
  let svc := t2.takeWhile (fun c => c ≠ '/')
  match t2.dropWhile (fun c => c ≠ '/') with
  | [] => ("", "")
  | _ :: rest => (String.mk svc, String.mk rest)

/-- The context as it stands when dispatch begins on the resolved route
(sn, mn) of service s: the pooled context with the request headers merged into
its inbound metadata and the route identity populated. -/
def dispatchCtx (server : Server) (req : Request) (s : service) (sn mn : String) : Ctx :=
  populateCtx server s sn mn
    { (poolGet server).1 with
      ReqMetadata :=
        req.headers.foldl (fun m p => metaSet m p.1 p.2) (poolGet server).1.ReqMetadata }

/-- The error-check pattern of `ServeHTTP` lines 232-234 around `serve`: run
dispatch, and on an error call `respError` unless the response-sent flag is
already up. -/
def serveOutcome (server : Server) (req : Request) (mt : MethodFn) (c : Ctx) :
    Ctx × List Event :=
  let r := serve server.encoder server.compress mt req.body c
  match r.2.2 with
  | some e =>
    if r.1.isResp then (r.1, r.2.1)
    else ((respError e r.1).1, r.2.1 ++ (respError e r.1).2)
  | none => (r.1, r.2.1)

/-! ## Concrete instances used by witnesses and counterexamples -/

/-- A codec whose decode echoes the body and whose marshal and stream encode
succeed with tagged output. -/
def encOk : Encoder :=
  { decode := fun b => .ok b,
    marshal := fun r => .ok ("M:" ++ r),
    encodeTo := fun r => .ok ("E:" ++ r) }

/-- A codec that fails to decode every body. -/
def encBadBody : Encoder :=
  { encOk with decode := fun _ => .error (.plain "bad body") }

/-- A codec whose stream encode always fails (a broken or closed writer). -/
def encFailWrite : Encoder :=
  { encOk with encodeTo := fun _ => .error (.plain "write failed") }

/-- A compressor that succeeds with tagged output. -/
def compOk : CompressFn := fun b => .ok ("C:" ++ b)

/-- A method that sets no metadata and succeeds. -/
def mtOk : MethodFn := fun rm _ => (rm, "reply", none)

/-- A method that fails with the status-carrying error `Error(403, denied)`. -/
def mtErr403 : MethodFn :=
  fun rm _ => (rm, "reply", some (.withStatus 403 "denied"))

/-- A method that sets the outbound metadata entry Snappy=true and succeeds. -/
def mtSetSnappyMeta : MethodFn :=
  fun rm _ => (metaSet rm "Snappy" "true", "reply", none)

/-- One registered service named Svc with the single method Meth and no
middleware. -/
def svcOf (mt : MethodFn) : service :=
  { id := "id1", name := "Svc", method := [("Meth", mt)], handlers := [] }

/-- A server with one service, an empty pool and a chosen codec and
compression flag. -/
def serverOf (mt : MethodFn) (enc : Encoder) (snappy : Bool) : Server :=
  { pool := [], serviceMap := [("Svc", svcOf mt)], encoder := enc,
    compress := compOk, snappy := snappy }

/-- A well-formed POST to the registered method with one header. -/
def reqPost : Request :=
  { method := "POST", path := "/Svc/Meth", headers := [("X", "1")], body := "body" }

/-- A POST to an unregistered service. -/
def reqUnknownSvc : Request :=
  { method := "POST", path := "/Nope/Meth", headers := [], body := "" }

/-- A second registered service, for the discovery lifecycle. -/
def svcTwo : service :=
  { id := "id2", name := "Svc2", method := [("Meth", mtOk)], handlers := [] }

/-- Two services known to the server at start and stop time. -/
def twoServices : List service := [svcOf mtOk, svcTwo]

/-- A discovery collaborator whose every call fails. -/
def regFail : Node → Option String := fun _ => some "registry down"

/-- A deregistration collaborator whose every call fails. -/
def deregFail : String → String → Option String := fun _ _ => some "registry down"

/-! ## Helper lemmas -/

/-- `respError` in one equation: status is the declared code or 500, body and
log message are the error message. -/
theorem respError_eq (e : RpcError) (c : Ctx) :
    respError e c =
      ({ c with isResp := true },
       [.logError c.ServiceID c.ServiceName c.MethodName e.statusCode e.message,
        .writeHeader e.statusCode, .writeBody e.message]) := by
  cases e <;> rfl

/-- `ServeHTTP` on a resolved route with no middleware: acquire a context,
dispatch through `serve` with the error check, and put the resulting context
back in the pool, with the events in source order. -/
theorem ServeHTTP_dispatch_eq (server : Server) (req : Request) (sn mn : String)
    (s : service) (mt : MethodFn)
    (hpost : req.method = "POST")
    (hroute : getServiceMethod req.path = (sn, mn))
    (hsn : sn ≠ "") (hmn : mn ≠ "")
    (hsvc : List.lookup sn server.serviceMap = some s)
    (hmt : List.lookup mn s.method = some mt)
    (hh : s.handlers = []) :
    ServeHTTP server req =
      (poolPut (poolGet server).2
         (serveOutcome server req mt (dispatchCtx server req s sn mn)).1,
       [.routeLookup sn mn, .ctxAcquired] ++
         (serveOutcome server req mt (dispatchCtx server req s sn mn)).2 ++
         [.ctxReleased]) := by
  unfold ServeHTTP serveOutcome dispatchCtx
  simp [hpost, hroute, hsn, hmn, hsvc, hmt, hh]

/-- `pool.Get` on an empty free list builds a fresh context. -/
theorem poolGet_empty (server : Server) (h : server.pool = []) :
    poolGet server = (newCtx, server) := by
  unfold poolGet
  rw [h]

/-- The split loop agrees with takeWhile and dropWhile at the first slash. -/
theorem splitAtFirstSlash_eq (l : List Char) :
    splitAtFirstSlash l =
      match l.dropWhile (fun c => c ≠ '/') with
      | [] => none
      | _ :: rest => some (l.takeWhile (fun c => c ≠ '/'), rest) := by
  induction l with
  | nil => rfl
  | cons c rest ih =>
    by_cases hc : c = '/'
    · subst hc
      simp [splitAtFirstSlash, List.dropWhile_cons, List.takeWhile_cons]
    · rw [splitAtFirstSlash, if_neg hc, ih]
      simp only [List.dropWhile_cons, List.takeWhile_cons, hc]
      cases hd : rest.dropWhile (fun c => c ≠ '/') <;> simp [hc]

/-- `logsOf` distributes over append. -/
theorem logsOf_append (a b : List Event) : logsOf (a ++ b) = logsOf a ++ logsOf b := by
  simp [logsOf, List.filter_append]

/-- Header-copy events are not audit-log spawns. -/
theorem logsOf_setHeaders (l : Metadata) :
    logsOf (l.map fun p => Event.setHeader p.1 p.2) = [] := by
  induction l with
  | nil => rfl
  | cons h t ih => simpa [logsOf, Event.isLog] using ih

/-- `serve` itself never spawns the audit-log callback: the only `logError`
events of a request come from `respError`. -/
theorem serve_logsOf (enc : Encoder) (comp : CompressFn) (mt : MethodFn)
    (body : String) (c : Ctx) : logsOf (serve enc comp mt body c).2.1 = [] := by
  unfold serve
  cases hdec : enc.decode body with
  | error e => simp [hdec, logsOf]
  | ok argv =>
    cases hm : (mt c.RespMetadata argv).2.2 with
    | some e => simp [hdec, hm, logsOf, Event.isLog]
    | none =>
      cases hcs : c.snappy with
      | false =>
        cases henc : enc.encodeTo (mt c.RespMetadata argv).2.1 with
        | error e =>
          simp [hdec, hm, hcs, henc, logsOf_append, logsOf_setHeaders, logsOf, Event.isLog]
          intro a x y hmem h
          subst h
          rfl
        | ok bs =>
          simp [hdec, hm, hcs, henc, logsOf_append, logsOf_setHeaders, logsOf, Event.isLog]
          intro a x y hmem h
          subst h
          rfl
      | true =>
        cases hmar : enc.marshal (mt c.RespMetadata argv).2.1 with
        | error e =>
          simp [hdec, hm, hcs, hmar, logsOf_append, logsOf_setHeaders, logsOf, Event.isLog]
          intro a x y hmem h
          subst h
          rfl
        | ok data =>
          cases hcomp : comp data with
          | error e =>
            simp [hdec, hm, hcs, hmar, hcomp, logsOf_append, logsOf_setHeaders, logsOf,
              Event.isLog]
            intro a x y hmem h
            subst h
            rfl
          | ok cdata =>
            simp [hdec, hm, hcs, hmar, hcomp, logsOf_append, logsOf_setHeaders, logsOf,
              Event.isLog]
            intro a x y hmem h
            subst h
            rfl

/-- When `serve` reports an error, the context it hands back still has the
identity fields and the response-sent flag of the context it was given — in
particular the flag is still down when it was down on entry, so `respError`
will run. -/
theorem serve_error_ctx (enc : Encoder) (comp : CompressFn) (mt : MethodFn)
    (body : String) (c : Ctx) (e : RpcError)
    (h : (serve enc comp mt body c).2.2 = some e) :
    (serve enc comp mt body c).1.isResp = c.isResp ∧
    (serve enc comp mt body c).1.ServiceID = c.ServiceID ∧
    (serve enc comp mt body c).1.ServiceName = c.ServiceName ∧
    (serve enc comp mt body c).1.MethodName = c.MethodName := by
  unfold serve at h ⊢
  cases hdec : enc.decode body with
  | error e0 => simp [hdec]
  | ok argv =>
    cases hm : (mt c.RespMetadata argv).2.2 with
    | some e0 => simp [hdec, hm]
    | none =>
      cases hcs : c.snappy with
      | false =>
        simp [hdec, hm, hcs] at h
      | true =>
        cases hmar : enc.marshal (mt c.RespMetadata argv).2.1 with
        | error e1 => simp [hdec, hm, hcs, hmar]
        | ok data =>
          cases hcomp : comp data with
          | error e2 => simp [hdec, hm, hcs, hmar, hcomp]
          | ok cdata => simp [hdec, hm, hcs, hmar, hcomp] at h

/-- `serveOutcome` when `serve` reports no error: pass its context and events
through. -/
theorem serveOutcome_none (server : Server) (req : Request) (mt : MethodFn) (c : Ctx)
    (h : (serve server.encoder server.compress mt req.body c).2.2 = none) :
    serveOutcome server req mt c =
      ((serve server.encoder server.compress mt req.body c).1,
       (serve server.encoder server.compress mt req.body c).2.1) := by
  unfold serveOutcome
  simp only [h]

/-- `serveOutcome` when `serve` reports an error and the context entered with
the response-sent flag down: `respError` runs and its events follow the
dispatch events. -/
theorem serveOutcome_some (server : Server) (req : Request) (mt : MethodFn) (c : Ctx)
    (e : RpcError)
    (h : (serve server.encoder server.compress mt req.body c).2.2 = some e)
    (hflag : c.isResp = false) :
    serveOutcome server req mt c =
      ((respError e (serve server.encoder server.compress mt req.body c).1).1,
       (serve server.encoder server.compress mt req.body c).2.1 ++
         (respError e (serve server.encoder server.compress mt req.body c).1).2) := by
  have hi := (serve_error_ctx server.encoder server.compress mt req.body c e h).1
  unfold serveOutcome
  simp only [h]
  rw [hi, hflag]
  simp

/-- The context dispatch starts from carries the resolved identity. -/
theorem dispatchCtx_fields (server : Server) (req : Request) (s : service)
    (sn mn : String) :
    (dispatchCtx server req s sn mn).ServiceID = s.id ∧
    (dispatchCtx server req s sn mn).ServiceName = sn ∧
    (dispatchCtx server req s sn mn).MethodName = mn := by
  unfold dispatchCtx populateCtx
  exact ⟨rfl, rfl, rfl⟩

/-- On an empty pool the dispatch context is built on a fresh `pool.New`
context: its outbound metadata is empty and its response-sent flag is down. -/
theorem dispatchCtx_fresh (server : Server) (req : Request) (s : service)
    (sn mn : String) (hpool : server.pool = []) :
    (dispatchCtx server req s sn mn).RespMetadata = [] ∧
    (dispatchCtx server req s sn mn).isResp = false := by
  unfold dispatchCtx populateCtx
  rw [poolGet_empty server hpool]
  exact ⟨rfl, rfl⟩

/-- Unpacking a packed character list. -/
theorem toList_mk (l : List Char) : (String.mk l).toList = l := rfl

/-- Splitting on colons never yields an empty list of parts. -/
theorem splitOnColon_ne_nil (cs : List Char) : splitOnColon cs ≠ [] := by
  induction cs with
  | nil => simp [splitOnColon]
  | cons c rest ih =>
    unfold splitOnColon
    by_cases hc : c = ':'
    · simp [hc]
    · rw [if_neg hc]
      cases hsp : splitOnColon rest with
      | nil => exact absurd hsp ih
      | cons g gs => simp

/-- Joining the parts with colons restores the original characters. -/
theorem joinColon_splitOnColon (cs : List Char) : joinColon (splitOnColon cs) = cs := by
  induction cs with
  | nil => rfl
  | cons c rest ih =>
    unfold splitOnColon
    by_cases hc : c = ':'
    · rw [if_pos hc]
      cases hsp : splitOnColon rest with
      | nil => exact absurd hsp (splitOnColon_ne_nil rest)
      | cons g gs =>
        rw [hsp] at ih
        subst hc
        show joinColon ([] :: g :: gs) = ':' :: rest
        rw [show joinColon ([] :: g :: gs) = [] ++ ':' :: joinColon (g :: gs) from rfl]
        rw [ih]
        rfl
    · rw [if_neg hc]
      cases hsp : splitOnColon rest with
      | nil => exact absurd hsp (splitOnColon_ne_nil rest)
      | cons g gs =>
        rw [hsp] at ih
        cases gs with
        | nil =>
          simp only [joinColon] at ih ⊢
          rw [ih]
        | cons g2 t =>
          show (c :: g) ++ ':' :: joinColon (g2 :: t) = c :: rest
          rw [← ih]
          rfl

/-- No part produced by the colon split contains a colon. -/
theorem splitOnColon_no_colon (cs : List Char) :
    ∀ g ∈ splitOnColon cs, ':' ∉ g := by
  induction cs with
  | nil =>
    intro g hg
    simp [splitOnColon] at hg
    simp [hg]
  | cons c rest ih =>
    intro g hg
    unfold splitOnColon at hg
    by_cases hc : c = ':'
    · rw [if_pos hc] at hg
      rcases List.mem_cons.mp hg with h | h
      · simp [h]
      · exact ih g h
    · rw [if_neg hc] at hg
      cases hsp : splitOnColon rest with
      | nil => exact absurd hsp (splitOnColon_ne_nil rest)
      | cons g0 gs =>
        rw [hsp] at hg
        rcases List.mem_cons.mp hg with h | h
        · subst h
          intro hmem
          rcases List.mem_cons.mp hmem with h2 | h2
          · exact hc h2.symm
          · exact ih g0 (by rw [hsp]; exact List.mem_cons_self g0 gs) h2
        · exact ih g (by rw [hsp]; exact List.mem_cons_of_mem g0 h)

/-- The colon split has more than one part exactly when a colon occurs. -/
theorem splitOnColon_length (cs : List Char) :
    1 < (splitOnColon cs).length ↔ ':' ∈ cs := by
  induction cs with
  | nil => simp [splitOnColon]
  | cons c rest ih =>
    unfold splitOnColon
    by_cases hc : c = ':'
    · subst hc
      rw [if_pos rfl]
      have hlen : 0 < (splitOnColon rest).length :=
        List.length_pos.mpr (splitOnColon_ne_nil rest)
      constructor
      · intro _
        exact List.mem_cons_self _ _
      · intro _
        simp only [List.length_cons]
        omega
    · rw [if_neg hc]
      cases hsp : splitOnColon rest with
      | nil => exact absurd hsp (splitOnColon_ne_nil rest)
      | cons g gs =>
        rw [hsp] at ih
        simp only [List.length_cons, List.mem_cons] at ih ⊢
        constructor
        · intro h
          exact Or.inr (ih.mp h)
        · intro h
          rcases h with h | h
          · exact absurd h.symm hc
          · exact ih.mpr h

/-- With at least two parts, the join splits around the final colon. -/
theorem joinColon_dropLast :
    ∀ gs : List (List Char), 1 < gs.length →
      joinColon gs = joinColon gs.dropLast ++ ':' :: gs.getLastD []
  | [], h => by simp at h
  | [_], h => by simp at h
  | g :: g2 :: t, _ => by
    cases t with
    | nil => simp [joinColon]
    | cons g3 t2 =>
      have ih := joinColon_dropLast (g2 :: g3 :: t2) (by simp)
      show g ++ ':' :: joinColon (g2 :: g3 :: t2) =
        joinColon (g :: (g2 :: g3 :: t2).dropLast) ++ ':' ::
          (g :: g2 :: g3 :: t2).getLastD []
      rw [ih]
      rw [show (g2 :: g3 :: t2).dropLast = g2 :: (g3 :: t2).dropLast from rfl]
      rw [show joinColon (g :: g2 :: (g3 :: t2).dropLast) =
        g ++ ':' :: joinColon (g2 :: (g3 :: t2).dropLast) from rfl]
      simp only [List.getLastD_cons]
      simp

/-- The last element of a nonempty list, whatever the default, is in it. -/
theorem getLastD_mem {α : Type} :
    ∀ (x : α) (xs : List α) (d : α), (x :: xs).getLastD d ∈ x :: xs
  | x, [], d => by simp
  | x, y :: ys, d => by
    rw [List.getLastD_cons]
    exact List.mem_cons_of_mem x (getLastD_mem y ys x)

/-- On an address containing a colon, the (host, port) derivation of `start`
gives back the address as host, a colon, then port, and the port is
colon-free: exactly the split at the last colon. -/
theorem hostPortOf_splits_last_colon (addr : String) (h : ':' ∈ addr.toList) :
    (hostPortOf addr).1.toList ++ ':' :: (hostPortOf addr).2.toList = addr.toList ∧
    ':' ∉ (hostPortOf addr).2.toList := by
  have hlen : 1 < (splitOnColon addr.toList).length :=
    (splitOnColon_length addr.toList).mpr h
  unfold hostPortOf
  rw [if_pos hlen]
  constructor
  · show joinColon (splitOnColon addr.toList).dropLast ++
        ':' :: (splitOnColon addr.toList).getLastD [] = addr.toList
    rw [← joinColon_dropLast _ hlen, joinColon_splitOnColon]
  · show ':' ∉ (splitOnColon addr.toList).getLastD []
    obtain ⟨g, gs, hsp⟩ : ∃ g gs, splitOnColon addr.toList = g :: gs := by
      cases hq : splitOnColon addr.toList with
      | nil => exact absurd hq (splitOnColon_ne_nil addr.toList)
      | cons a b => exact ⟨a, b, rfl⟩
    rw [hsp]
    refine splitOnColon_no_colon addr.toList _ ?_
    rw [hsp]
    exact getLastD_mem g gs []

/-! ## Claim theorems -/

/-- Claim C4 — the path router strips at most one leading and one trailing
slash and splits at the first remaining slash into (service, method); with no
slash remaining both segments are empty, the routing-failure answer. The code
router coincides with the router the specification describes; both are pure
Lean functions, so freedom from side effects is inherent. -/
theorem getServiceMethod_matches_spec (s : String) :
    getServiceMethod s = pathRouterSpecFn s := by
  have core : ∀ l : List Char,
      (match splitAtFirstSlash l with
       | some p => (String.mk p.1, String.mk p.2)
       | none => (("" : String), ("" : String))) =
      (match l.dropWhile (fun c => c ≠ '/') with
       | [] => (("" : String), ("" : String))
       | _ :: rest => (String.mk (l.takeWhile (fun c => c ≠ '/')), String.mk rest)) := by
    intro l
    rw [splitAtFirstSlash_eq]
    cases hd : l.dropWhile (fun c => c ≠ '/') <;> simp
  simp only [getServiceMethod, pathRouterSpecFn]
  exact core _

/-- Claim C9 — any request whose method is not POST gets status 405 with the
exact body, the server state (and so the context pool) is untouched, and no
route lookup, context acquisition or dispatch event occurs. -/
theorem nonPost_405 (server : Server) (req : Request) (h : req.method ≠ "POST") :
    ServeHTTP server req =
      (server, [.setHeader "Content-Type" "text/plain; charset=utf-8",
                .writeHeader 405, .writeBody "405 must POST\n"]) := by
  unfold ServeHTTP
  simp [h]

/-- Witness for C9 at a concrete GET request. -/
theorem nonPost_405_witness :
    ({ reqPost with method := "GET" } : Request).method ≠ "POST" ∧
    ServeHTTP (serverOf mtOk encOk false) { reqPost with method := "GET" } =
      (serverOf mtOk encOk false,
       [.setHeader "Content-Type" "text/plain; charset=utf-8",
        .writeHeader 405, .writeBody "405 must POST\n"]) :=
  ⟨by decide, nonPost_405 (serverOf mtOk encOk false) _ (by decide)⟩

/-- Claim C3 — the three routing failures of a POST: a missing path segment,
an unknown service and an unknown method each answer 404 with the exact body
and nothing else: the exact event lists contain no `logError` (no audit-log
callback) and no `methodInvoked` or `encodeReply` (short-circuit before
dispatch). On the missing-segment failure the pool is untouched; on the other
two the context has already been drawn (`ctxAcquired`). -/
theorem routingFailure_responses (server : Server) (req : Request)
    (hpost : req.method = "POST") :
    ((getServiceMethod req.path).1 = "" ∨ (getServiceMethod req.path).2 = "" →
      ServeHTTP server req =
        (server,
         [.routeLookup (getServiceMethod req.path).1 (getServiceMethod req.path).2,
          .writeHeader 404, .writeBody (cantFind "service or method")])) ∧
    (∀ s1 s2 : String, getServiceMethod req.path = (s1, s2) → s1 ≠ "" → s2 ≠ "" →
      List.lookup s1 server.serviceMap = none →
      ServeHTTP server req =
        ((poolGet server).2,
         [.routeLookup s1 s2, .ctxAcquired, .writeHeader 404,
          .writeBody (cantFind ("service " ++ s1))])) ∧
    (∀ (s1 s2 : String) (svc : service),
      getServiceMethod req.path = (s1, s2) → s1 ≠ "" → s2 ≠ "" →
      List.lookup s1 server.serviceMap = some svc →
      List.lookup s2 svc.method = none →
      ServeHTTP server req =
        ((poolGet server).2,
         [.routeLookup s1 s2, .ctxAcquired, .writeHeader 404,
          .writeBody (cantFind ("method " ++ s2))])) := by
  refine ⟨fun h => ?_, fun s1 s2 hr h1 h2 hl => ?_, fun s1 s2 svc hr h1 h2 hl hm => ?_⟩
  · unfold ServeHTTP
    simp [hpost, h]
  · unfold ServeHTTP
    simp [hpost, hr, h1, h2, hl]
  · unfold ServeHTTP
    simp [hpost, hr, h1, h2, hl, hm]

/-- Witness for C3 at a POST to an unregistered service name. -/
theorem routingFailure_responses_witness :
    reqUnknownSvc.method = "POST" ∧
    getServiceMethod reqUnknownSvc.path = ("Nope", "Meth") ∧
    List.lookup "Nope" (serverOf mtOk encOk false).serviceMap = none ∧
    ServeHTTP (serverOf mtOk encOk false) reqUnknownSvc =
      ((poolGet (serverOf mtOk encOk false)).2,
       [.routeLookup "Nope" "Meth", .ctxAcquired, .writeHeader 404,
        .writeBody (cantFind ("service " ++ "Nope"))]) :=
  ⟨rfl, by decide, rfl,
   (routingFailure_responses (serverOf mtOk encOk false) reqUnknownSvc rfl).2.1
     "Nope" "Meth" (by decide) (by decide) (by decide) rfl⟩

/-- Claim C1 — evaluation of the code at the failing inputs. First conjunct:
a POST to an unknown service on a server whose pool holds one free context
leaves the pool empty afterward — the context is consumed and never returned,
against the claim that it is returned on every exit path. Second conjunct:
after a dispatched request whose method failed, the context sits in the pool
with the response-sent flag still set and the inbound metadata of the request
still present — nothing was reset. Third conjunct: a second identical request
served from that recycled context produces no write events at all (its 403
error response is suppressed by the stale flag), so flags do leak between two
sequential acquire/release cycles on the same freed slot. -/
theorem contextPool_not_reset :
    (ServeHTTP { serverOf mtOk encOk false with pool := [newCtx] } reqUnknownSvc).1.pool
      = [] ∧
    (ServeHTTP (serverOf mtErr403 encOk false) reqPost).1.pool =
      [{ ReqMetadata := [("X", "1")], RespMetadata := [], ServiceID := "id1",
         ServiceName := "Svc", MethodName := "Meth", isResp := true,
         snappy := false }] ∧
    (ServeHTTP (ServeHTTP (serverOf mtErr403 encOk false) reqPost).1 reqPost).2 =
      [.routeLookup "Svc" "Meth", .ctxAcquired, .methodInvoked, .ctxReleased] :=
  ⟨by decide, by decide, by decide⟩

/-- Counterexample for C2 — the claim fails on a context recycled after an
error response: the first request gets its 403 status and body, but the
second dispatched request, whose method returns the same status-403 error,
produces no status write, no body and no audit-log spawn at all, because the
response-sent flag survived the pool round trip. -/
theorem dispatchError_staleFlag_counterexample :
    (ServeHTTP (serverOf mtErr403 encOk false) reqPost).2 =
      [.routeLookup "Svc" "Meth", .ctxAcquired, .methodInvoked,
       .logError "id1" "Svc" "Meth" 403 "denied", .writeHeader 403,
       .writeBody "denied", .ctxReleased] ∧
    mtErr403 [] "body" = ([], "reply", some (.withStatus 403 "denied")) ∧
    (ServeHTTP (ServeHTTP (serverOf mtErr403 encOk false) reqPost).1 reqPost).2 =
      [.routeLookup "Svc" "Meth", .ctxAcquired, .methodInvoked, .ctxReleased] :=
  ⟨by decide, rfl, by decide⟩

/-- Claim C2 as amended — a dispatched request served on a freshly created
context (empty pool, so `pool.New` supplies it) whose method returns a non-nil
error: the exact event list shows no `encodeReply` (no reply encoding
attempted), no `setHeader` (no outbound metadata written), a status write
equal to the declared code of a status-carrying error and 500 for any other
error, and the body exactly the error message. -/
theorem dispatchError_fresh_ctx (server : Server) (req : Request) (sn mn : String)
    (s : service) (mt : MethodFn) (argv replyv : String) (respMeta : Metadata)
    (e : RpcError)
    (hpost : req.method = "POST")
    (hroute : getServiceMethod req.path = (sn, mn))
    (hsn : sn ≠ "") (hmn : mn ≠ "")
    (hsvc : List.lookup sn server.serviceMap = some s)
    (hmt : List.lookup mn s.method = some mt)
    (hh : s.handlers = [])
    (hpool : server.pool = [])
    (hdec : server.encoder.decode req.body = .ok argv)
    (hm : mt [] argv = (respMeta, replyv, some e)) :
    (ServeHTTP server req).2 =
      [.routeLookup sn mn, .ctxAcquired, .methodInvoked,
       .logError s.id sn mn e.statusCode e.message,
       .writeHeader e.statusCode, .writeBody e.message, .ctxReleased] := by
  rw [ServeHTTP_dispatch_eq server req sn mn s mt hpost hroute hsn hmn hsvc hmt hh]
  unfold serveOutcome dispatchCtx populateCtx
  rw [poolGet_empty server hpool]
  simp [serve, hdec, hm, respError_eq, newCtx]

/-- Witness for the amended C2 at a concrete method failing with
`Error(403, denied)`: the response is status 403 with body denied. -/
theorem dispatchError_fresh_ctx_witness :
    mtErr403 [] "body" = ([], "reply", some (.withStatus 403 "denied")) ∧
    (ServeHTTP (serverOf mtErr403 encOk false) reqPost).2 =
      [.routeLookup "Svc" "Meth", .ctxAcquired, .methodInvoked,
       .logError "id1" "Svc" "Meth" (RpcError.withStatus 403 "denied").statusCode
         (RpcError.withStatus 403 "denied").message,
       .writeHeader (RpcError.withStatus 403 "denied").statusCode,
       .writeBody (RpcError.withStatus 403 "denied").message, .ctxReleased] :=
  ⟨rfl,
   dispatchError_fresh_ctx (serverOf mtErr403 encOk false) reqPost "Svc" "Meth"
     (svcOf mtErr403) mtErr403 "body" "reply" [] (.withStatus 403 "denied")
     rfl (by decide) (by decide) (by decide) rfl rfl rfl rfl rfl rfl⟩

/-- Counterexample for C5 — with compression disabled, a successful method
that merely places Snappy=true in its outbound metadata makes the response
carry the header `Snappy: true`, so the header is not present only when
compression is enabled. -/
theorem snappyHeader_counterexample :
    (serverOf mtSetSnappyMeta encOk false).snappy = false ∧
    List.lookup "Snappy"
      (headerFinal (ServeHTTP (serverOf mtSetSnappyMeta encOk false) reqPost).2)
      = some "true" :=
  ⟨rfl, by decide⟩

/-- Claim C5 as amended — a dispatched request served on a freshly created
context whose method succeeds: status 200 in both modes; the outbound metadata
set by the method is copied to the transport headers before the status and
body writes; the server adds the `Snappy: true` header exactly in compressed
mode, where the body is the compressed marshalled reply; in uncompressed mode
the reply is stream-encoded directly after the 200 write (and the header can
then still appear if the metadata itself carries it, which is what the
counterexample exhibits against the original claim). -/
theorem successResponse_events (server : Server) (req : Request) (sn mn : String)
    (s : service) (mt : MethodFn) (argv replyv : String) (respMeta : Metadata)
    (hpost : req.method = "POST")
    (hroute : getServiceMethod req.path = (sn, mn))
    (hsn : sn ≠ "") (hmn : mn ≠ "")
    (hsvc : List.lookup sn server.serviceMap = some s)
    (hmt : List.lookup mn s.method = some mt)
    (hh : s.handlers = [])
    (hpool : server.pool = [])
    (hdec : server.encoder.decode req.body = .ok argv)
    (hm : mt [] argv = (respMeta, replyv, none)) :
    (server.snappy = true →
      ∀ data cdata : String, server.encoder.marshal replyv = .ok data →
        server.compress data = .ok cdata →
        (ServeHTTP server req).2 =
          [.routeLookup sn mn, .ctxAcquired, .methodInvoked] ++
            respMeta.map (fun p => Event.setHeader p.1 p.2) ++
            [.encodeReply, .setHeader "Snappy" "true", .writeHeader 200,
             .writeBody cdata, .ctxReleased]) ∧
    (server.snappy = false →
      ∀ bs : String, server.encoder.encodeTo replyv = .ok bs →
        (ServeHTTP server req).2 =
          [.routeLookup sn mn, .ctxAcquired, .methodInvoked] ++
            respMeta.map (fun p => Event.setHeader p.1 p.2) ++
            [.writeHeader 200, .encodeReply, .writeBody bs, .ctxReleased]) := by
  constructor
  · intro hsnap data cdata hmar hcomp
    rw [ServeHTTP_dispatch_eq server req sn mn s mt hpost hroute hsn hmn hsvc hmt hh]
    unfold serveOutcome dispatchCtx populateCtx
    rw [poolGet_empty server hpool]
    simp [serve, hdec, hm, hsnap, hmar, hcomp, newCtx]
  · intro hsnap bs henc
    rw [ServeHTTP_dispatch_eq server req sn mn s mt hpost hroute hsn hmn hsvc hmt hh]
    unfold serveOutcome dispatchCtx populateCtx
    rw [poolGet_empty server hpool]
    simp [serve, hdec, hm, hsnap, henc, newCtx]

/-- Witness for the amended C5 in compressed mode: the body is the compressed
marshalled reply and the server sets the Snappy header. -/
theorem successResponse_events_witness :
    mtOk [] "body" = ([], "reply", none) ∧
    (serverOf mtOk encOk true).snappy = true ∧
    (ServeHTTP (serverOf mtOk encOk true) reqPost).2 =
      [.routeLookup "Svc" "Meth", .ctxAcquired, .methodInvoked] ++
        ([] : Metadata).map (fun p => Event.setHeader p.1 p.2) ++
        [.encodeReply, .setHeader "Snappy" "true", .writeHeader 200,
         .writeBody "C:M:reply", .ctxReleased] :=
  ⟨rfl, rfl,
   (successResponse_events (serverOf mtOk encOk true) reqPost "Svc" "Meth"
       (svcOf mtOk) mtOk "body" "reply" []
       rfl (by decide) (by decide) (by decide) rfl rfl rfl rfl rfl rfl).1
     rfl "M:reply" "C:M:reply" rfl rfl⟩

/-- Claim C6 — a dispatched request whose body fails to decode: `serve`
returns `Error(500, unable to encode response)` without the method ever being
invoked, whatever the context, and the full pipeline on a fresh context writes
status 500 with that message as the body, again with no `methodInvoked`
event. -/
theorem decodeFailure_500 (server : Server) (req : Request) (sn mn : String)
    (s : service) (mt : MethodFn) (e : RpcError)
    (hpost : req.method = "POST")
    (hroute : getServiceMethod req.path = (sn, mn))
    (hsn : sn ≠ "") (hmn : mn ≠ "")
    (hsvc : List.lookup sn server.serviceMap = some s)
    (hmt : List.lookup mn s.method = some mt)
    (hh : s.handlers = [])
    (hpool : server.pool = [])
    (hdec : server.encoder.decode req.body = .error e) :
    (∀ c : Ctx, serve server.encoder server.compress mt req.body c =
      (c, [], some (.withStatus 500 "unable to encode response"))) ∧
    (ServeHTTP server req).2 =
      [.routeLookup sn mn, .ctxAcquired,
       .logError s.id sn mn 500 "unable to encode response",
       .writeHeader 500, .writeBody "unable to encode response",
       .ctxReleased] := by
  constructor
  · intro c
    unfold serve
    rw [hdec]
  · rw [ServeHTTP_dispatch_eq server req sn mn s mt hpost hroute hsn hmn hsvc hmt hh]
    unfold serveOutcome dispatchCtx populateCtx
    rw [poolGet_empty server hpool]
    simp [serve, hdec, respError_eq, newCtx, RpcError.statusCode, RpcError.message]

/-- Witness for C6 at a codec that rejects every body. -/
theorem decodeFailure_500_witness :
    encBadBody.decode "body" = .error (.plain "bad body") ∧
    (ServeHTTP (serverOf mtOk encBadBody false) reqPost).2 =
      [.routeLookup "Svc" "Meth", .ctxAcquired,
       .logError "id1" "Svc" "Meth" 500 "unable to encode response",
       .writeHeader 500, .writeBody "unable to encode response",
       .ctxReleased] :=
  ⟨rfl,
   (decodeFailure_500 (serverOf mtOk encBadBody false) reqPost "Svc" "Meth"
       (svcOf mtOk) mtOk (.plain "bad body")
       rfl (by decide) (by decide) (by decide) rfl rfl rfl rfl rfl).2⟩

/-- Claim C7 as amended — on a fresh context, the audit-log callback is
spawned exactly when `serve` reports an error (a decode failure, a method
error, or a marshal or compression failure in compressed mode), and then
exactly once, with exactly (serviceId, serviceName, methodName, status,
error message) where the status is the declared code or 500; when `serve`
reports none — which includes the discarded stream-encode failure of
uncompressed mode — no callback is spawned. -/
theorem auditLog_on_serve_errors (server : Server) (req : Request) (sn mn : String)
    (s : service) (mt : MethodFn)
    (hpost : req.method = "POST")
    (hroute : getServiceMethod req.path = (sn, mn))
    (hsn : sn ≠ "") (hmn : mn ≠ "")
    (hsvc : List.lookup sn server.serviceMap = some s)
    (hmt : List.lookup mn s.method = some mt)
    (hh : s.handlers = [])
    (hpool : server.pool = []) :
    logsOf (ServeHTTP server req).2 =
      (match (serve server.encoder server.compress mt req.body
               (dispatchCtx server req s sn mn)).2.2 with
       | some e => [Event.logError s.id sn mn e.statusCode e.message]
       | none => []) := by
  rw [ServeHTTP_dispatch_eq server req sn mn s mt hpost hroute hsn hmn hsvc hmt hh]
  cases hres : (serve server.encoder server.compress mt req.body
      (dispatchCtx server req s sn mn)).2.2 with
  | none =>
    rw [serveOutcome_none server req mt _ hres]
    simp only [logsOf_append, serve_logsOf]
    rfl
  | some e =>
    have hfresh := (dispatchCtx_fresh server req s sn mn hpool).2
    rw [serveOutcome_some server req mt _ e hres hfresh]
    have hctx := serve_error_ctx server.encoder server.compress mt req.body
      (dispatchCtx server req s sn mn) e hres
    have hfields := dispatchCtx_fields server req s sn mn
    rw [respError_eq]
    simp only [logsOf_append, serve_logsOf, hctx.2.1, hctx.2.2.1, hctx.2.2.2,
      hfields.1, hfields.2.1, hfields.2.2]
    simp [logsOf, Event.isLog]

/-- Witness for the amended C7 at a method failing with `Error(403, denied)`:
one callback spawn with (id1, Svc, Meth, 403, denied). -/
theorem auditLog_on_serve_errors_witness :
    logsOf (ServeHTTP (serverOf mtErr403 encOk false) reqPost).2 =
      (match (serve (serverOf mtErr403 encOk false).encoder
               (serverOf mtErr403 encOk false).compress mtErr403 reqPost.body
               (dispatchCtx (serverOf mtErr403 encOk false) reqPost
                 (svcOf mtErr403) "Svc" "Meth")).2.2 with
       | some e => [Event.logError "id1" "Svc" "Meth" e.statusCode e.message]
       | none => []) :=
  auditLog_on_serve_errors (serverOf mtErr403 encOk false) reqPost "Svc" "Meth"
    (svcOf mtErr403) mtErr403 rfl (by decide) (by decide) (by decide) rfl rfl rfl rfl

/-- Counterexample for C7 — a dispatch-time encode failure with compression
disabled triggers no audit-log callback: the stream encode of the reply fails,
yet the request produces no `logError` spawn (and status 200 had already been
written). -/
theorem streamEncodeFailure_noLog :
    encFailWrite.encodeTo "reply" = .error (.plain "write failed") ∧
    (ServeHTTP (serverOf mtOk encFailWrite false) reqPost).2 =
      [.routeLookup "Svc" "Meth", .ctxAcquired, .methodInvoked,
       .writeHeader 200, .encodeReply, .ctxReleased] ∧
    logsOf (ServeHTTP (serverOf mtOk encFailWrite false) reqPost).2 = [] :=
  ⟨rfl, by decide, by decide⟩

/-- Claim C8 — with N known services and a configured discovery collaborator,
server start makes exactly N `Register` calls, the i-th with
(id, name, host, port, address) of the i-th service where (host, port) is the
code derivation from the listen address, and stop makes exactly N
`Deregister(name, id)` calls; the calls made do not depend on the
collaborator's answers, so an individual failure never prevents the rest; and
on an address containing a colon the derived (host, port) is precisely the
split at the last colon: host, a colon, then a colon-free port. -/
theorem discovery_register_deregister (reg : Node → Option String)
    (dereg : String → String → Option String) (svcs : List service)
    (addr : String) :
    (start (some reg) svcs addr).length = svcs.length ∧
    (start (some reg) svcs addr).map Prod.fst =
      svcs.map (fun s =>
        ⟨s.id, s.name, (hostPortOf addr).1, (hostPortOf addr).2, addr⟩) ∧
    (∀ reg' : Node → Option String,
      (start (some reg') svcs addr).map Prod.fst =
        (start (some reg) svcs addr).map Prod.fst) ∧
    (stop (some dereg) svcs).length = svcs.length ∧
    (stop (some dereg) svcs).map Prod.fst = svcs.map (fun s => (s.name, s.id)) ∧
    (∀ dereg' : String → String → Option String,
      (stop (some dereg') svcs).map Prod.fst =
        (stop (some dereg) svcs).map Prod.fst) ∧
    (':' ∈ addr.toList →
      (hostPortOf addr).1.toList ++ ':' :: (hostPortOf addr).2.toList =
        addr.toList ∧
      ':' ∉ (hostPortOf addr).2.toList) := by
  refine ⟨?_, ?_, ?_, ?_, ?_, ?_, fun h => hostPortOf_splits_last_colon addr h⟩
  · simp [start]
  · simp [start]
  · intro reg'
    simp [start]
  · simp [stop]
  · simp [stop]
  · intro dereg'
    simp [stop]

/-- Witness for C8: two services on a listen address with two colons in the
host part, against a collaborator that fails every call — both registrations
and both deregistrations are still attempted, with the last-colon split. -/
theorem discovery_register_deregister_witness :
    (':' ∈ ("0.0.0.0:7070" : String).toList) ∧
    ((hostPortOf "0.0.0.0:7070").1.toList ++ ':' ::
        (hostPortOf "0.0.0.0:7070").2.toList = ("0.0.0.0:7070" : String).toList ∧
      ':' ∉ (hostPortOf "0.0.0.0:7070").2.toList) ∧
    (start (some regFail) twoServices "0.0.0.0:7070").length =
      twoServices.length ∧
    (start (some regFail) twoServices "0.0.0.0:7070").map Prod.fst =
      twoServices.map (fun s =>
        ⟨s.id, s.name, (hostPortOf "0.0.0.0:7070").1,
         (hostPortOf "0.0.0.0:7070").2, "0.0.0.0:7070"⟩) ∧
    (stop (some deregFail) twoServices).map Prod.fst =
      twoServices.map (fun s => (s.name, s.id)) ∧
    start (some regFail) twoServices "0.0.0.0:7070" =
      [(⟨"id1", "Svc", "0.0.0.0", "7070", "0.0.0.0:7070"⟩, some "registry down"),
       (⟨"id2", "Svc2", "0.0.0.0", "7070", "0.0.0.0:7070"⟩, some "registry down")] :=
  ⟨by decide,
   (discovery_register_deregister regFail deregFail twoServices
       "0.0.0.0:7070").2.2.2.2.2.2 (by decide),
   (discovery_register_deregister regFail deregFail twoServices
       "0.0.0.0:7070").1,
   (discovery_register_deregister regFail deregFail twoServices
       "0.0.0.0:7070").2.1,
   (discovery_register_deregister regFail deregFail twoServices
       "0.0.0.0:7070").2.2.2.2.1,
   by decide⟩

/-- Claim C10 — for every value that does not implement the proto message
interface, none of the four gogoproto codec operations ever returns the
constructed "does not proto message interface" error: that error value is
built and immediately discarded, so whatever comes back is an error of the
proto library or of the writer, never the type-mismatch report. -/
theorem gogoproto_mismatch_never_returned
    (marshal : Option (List Nat) → Except String (List Nat))
    (unmarshal : List Nat → Option (List Nat) → Option String)
    (write : List Nat → Option String) (input data : List Nat) (v : GoVal)
    (hv : asProtoMessage v = none) :
    gogoEncode marshal write v ≠ some GoGoErr.mismatchErr ∧
    gogoDecode unmarshal input v ≠ some GoGoErr.mismatchErr ∧
    gogoMarshal marshal v ≠ .error GoGoErr.mismatchErr ∧
    gogoUnmarshal unmarshal data v ≠ some GoGoErr.mismatchErr := by
  refine ⟨?_, ?_, ?_, ?_⟩
  · unfold gogoEncode
    cases hm : marshal (asProtoMessage v) with
    | error e => simp [hm]
    | ok d =>
      simp only [hm]
      cases hw : write d <;> simp [hw]
  · unfold gogoDecode
    cases hu : unmarshal input (asProtoMessage v) <;> simp [hu]
  · unfold gogoMarshal
    cases hm : marshal (asProtoMessage v) <;> simp [hm]
  · unfold gogoUnmarshal
    cases hu : unmarshal data (asProtoMessage v) <;> simp [hu]

/-- Witness for C10 at a non-message value against a proto library that
rejects a nil message and a writer and unmarshaller that fail: every returned
error is the library's, never the discarded mismatch error. -/
theorem gogoproto_mismatch_never_returned_witness :
    asProtoMessage (GoVal.other 0) = none ∧
    (gogoEncode (fun _ => .error "nil message") (fun _ => some "broken pipe")
        (GoVal.other 0) ≠ some GoGoErr.mismatchErr ∧
      gogoDecode (fun _ _ => some "cannot parse") [] (GoVal.other 0) ≠
        some GoGoErr.mismatchErr ∧
      gogoMarshal (fun _ => .error "nil message") (GoVal.other 0) ≠
        .error GoGoErr.mismatchErr ∧
      gogoUnmarshal (fun _ _ => some "cannot parse") [7] (GoVal.other 0) ≠
        some GoGoErr.mismatchErr) :=
  ⟨rfl,
   gogoproto_mismatch_never_returned (fun _ => .error "nil message")
     (fun _ _ => some "cannot parse") (fun _ => some "broken pipe") [] [7]
     (GoVal.other 0) rfl⟩

end Kuja
